import Mathlib

/-!
Shallow embedding of the task-management core of the repository
(`src/app/actions/inbox.ts`, `src/app/actions/backlog.ts`,
`src/types/item.ts`, `src/app/utils/status.ts`).

Timestamps are modelled as integers (milliseconds, as JavaScript `Date`);
a calendar day is given by its day index `d`, with
`startOfDay d = d * 86400000` and `endOfDay d = d * 86400000 + 86399999`
mirroring dayjs `startOf('day')` / `endOf('day')` at millisecond
granularity.  The Prisma store is a list of rows; `findMany` with a
`where` clause is `List.filter`, `findFirst` is `List.find?`,
`orderBy: order` is an insertion sort on the `order` field, and
`orderBy desc take 1` (used to compute the maximum order) is the head of
the descending sort.  Thrown errors (`ValidationError` for an empty
title, `NotFound` for a failed ownership/existence check) become an
`Except` value; on error the store is returned unchanged, matching the
fact that the source throws before any `prisma.update`/`create` call.
Operations return the updated stored row; the presentation-layer
projection to `InboxItem`/`BacklogItem` DTOs (date strings) is omitted,
as are authentication (`getCurrentUser`), which is threaded as an
explicit `uid` argument per the rows' `userId` column.
-/

namespace Inbox

/-- Persisted item status (Prisma `ItemStatus` enum). -/
inductive ItemStatus where
  | TODO
  | IN_PROGRESS
  | IN_REVIEW
  | DONE
deriving DecidableEq

/-- UI-level status (`InboxItemStatus` in `src/types/item.ts`). -/
inductive UIStatus where
  | not_started
  | in_progress
  | completed
deriving DecidableEq

/-- `mapItemStatusToUI` from `src/types/item.ts`. -/
def mapItemStatusToUI : ItemStatus → UIStatus
  | ItemStatus.TODO => UIStatus.not_started
  | ItemStatus.IN_PROGRESS => UIStatus.in_progress
  | ItemStatus.IN_REVIEW => UIStatus.in_progress
  | ItemStatus.DONE => UIStatus.completed

/-- `mapUIToItemStatus` from `src/types/item.ts`. -/
def mapUIToItemStatus : UIStatus → ItemStatus
  | UIStatus.not_started => ItemStatus.TODO
  | UIStatus.in_progress => ItemStatus.IN_PROGRESS
  | UIStatus.completed => ItemStatus.DONE

/-- The cyclic status order from `src/app/utils/status.ts`. -/
def statusOrder : List UIStatus :=
  [UIStatus.not_started, UIStatus.in_progress, UIStatus.completed]

/-- `getNextStatus` from `src/app/utils/status.ts`. -/
def getNextStatus (currentStatus : UIStatus) : UIStatus :=
  statusOrder.getD ((statusOrder.indexOf currentStatus + 1) % statusOrder.length)
    UIStatus.not_started

/-- A stored row of the `items` table (Prisma `Item`). -/
structure Item where
  id : Nat
  userId : Nat
  title : String
  dueDate : Option Int
  status : ItemStatus
  order : Int
  completedAt : Option Int
  deletedAt : Option Int
deriving DecidableEq

/-- The item table. -/
structure Store where
  items : List Item
deriving DecidableEq

/-- dayjs `startOf('day')` of day index `d`, in milliseconds. -/
def startOfDay (d : Int) : Int := d * 86400000

/-- dayjs `endOf('day')` of day index `d`, in milliseconds. -/
def endOfDay (d : Int) : Int := d * 86400000 + 86399999

/-- JavaScript `String.prototype.trim`, implemented over the character
list so that it computes inside the kernel: drop whitespace from both
ends. -/
def trimStr (s : String) : String :=
  ⟨((s.data.dropWhile Char.isWhitespace).reverse.dropWhile
      Char.isWhitespace).reverse⟩

/-- Errors thrown by the server actions that the claims mention. -/
inductive OpError where
  | validationError
  | notFound
deriving DecidableEq

/-- `true` exactly on `Except.ok`. -/
def succeeded {α : Type} : Except OpError α → Bool
  | Except.ok _ => true
  | Except.error _ => false

/-- Prisma clause `dueDate: { gte: start(d), lte: end(d) }`. -/
def dueInRange (d : Int) (it : Item) : Bool :=
  match it.dueDate with
  | some t => decide (startOfDay d ≤ t) && decide (t ≤ endOfDay d)
  | none => false

/-- Prisma clause `dueDate: { lt: start(d) }, status: { not: DONE }`. -/
def overdueNotDone (d : Int) (it : Item) : Bool :=
  match it.dueDate with
  | some t => decide (t < startOfDay d) && decide (it.status ≠ ItemStatus.DONE)
  | none => false

/-- Prisma clause `completedAt: { gte: start(d), lte: end(d) }`. -/
def completedInRange (d : Int) (it : Item) : Bool :=
  match it.completedAt with
  | some c => decide (startOfDay d ≤ c) && decide (c ≤ endOfDay d)
  | none => false

/-- The `where` clause of `getInboxItems` (`src/app/actions/inbox.ts`). -/
def inboxWhere (uid : Nat) (d : Int) (it : Item) : Bool :=
  it.userId == uid && it.deletedAt.isNone
    && (dueInRange d it || overdueNotDone d it || completedInRange d it)

/-- The `where` clause selecting the caller's non-deleted items due on day
`d` (order computation of `addInboxItem` / `moveBacklogToInbox`). -/
def sameDayWhere (uid : Nat) (d : Int) (it : Item) : Bool :=
  it.userId == uid && dueInRange d it && it.deletedAt.isNone

/-- The `where` clause selecting the caller's non-deleted Backlog items
(`getBacklogItems`, order computation of `addBacklogItem` /
`moveInboxToBacklog`). -/
def backlogWhere (uid : Nat) (it : Item) : Bool :=
  it.userId == uid && it.dueDate.isNone && it.deletedAt.isNone

/-- The `findFirst` ownership check shared by `updateInboxItem` and
`deleteInboxItem`: `{ id, userId, deletedAt: null }`. -/
def ownedWhere (uid id : Nat) (it : Item) : Bool :=
  it.id == id && it.userId == uid && it.deletedAt.isNone

/-- Insert into a list that is ascending on `order`. -/
def insertByAsc (it : Item) : List Item → List Item
  | [] => [it]
  | x :: xs =>
      if it.order ≤ x.order then it :: x :: xs else x :: insertByAsc it xs

/-- Prisma `orderBy: { order: 'asc' }`. -/
def sortByOrderAsc : List Item → List Item
  | [] => []
  | x :: xs => insertByAsc x (sortByOrderAsc xs)

/-- Insert into a list that is descending on `order`. -/
def insertByDesc (it : Item) : List Item → List Item
  | [] => [it]
  | x :: xs =>
      if x.order ≤ it.order then it :: x :: xs else x :: insertByDesc it xs

/-- Prisma `orderBy: { order: 'desc' }`. -/
def sortByOrderDesc : List Item → List Item
  | [] => []
  | x :: xs => insertByDesc x (sortByOrderDesc xs)

/-- `findMany(orderBy: { order: 'desc' }, take: 1)`: the row of maximal
`order`, as used by every "max order + 1" computation in the source. -/
def maxOrder (l : List Item) : Option Int :=
  (sortByOrderDesc l).head?.map Item.order

/-- `newOrder = existing.length > 0 ? existing[0].order + 1 : 0`. -/
def nextOrder (l : List Item) : Int :=
  match maxOrder l with
  | some m => m + 1
  | none => 0

/-- `getInboxItems` (`src/app/actions/inbox.ts`): the caller's
non-deleted rows matching the three-way `OR`, sorted ascending by
`order`.  The projection to the `InboxItem` DTO (title/status/date
strings) is presentation-only and omitted. -/
def getInboxItems (uid : Nat) (d : Int) (s : Store) : List Item :=
  sortByOrderAsc (s.items.filter (inboxWhere uid d))

/-- `getBacklogItems` (`src/app/actions/backlog.ts`): the caller's
non-deleted rows with `dueDate: null`, sorted descending by `order`. -/
def getBacklogItems (uid : Nat) (s : Store) : List Item :=
  sortByOrderDesc (s.items.filter (backlogWhere uid))

/-- `addInboxItem` (`src/app/actions/inbox.ts`).  `dd` is the optional
requested due day, `today` the current day (dayjs default), `newId` the
id the database assigns to the created row. -/
def addInboxItem (uid : Nat) (title : String) (dd : Option Int) (today : Int)
    (newId : Nat) (s : Store) : Except OpError Item × Store :=
  if (trimStr title).data.length == 0 then
    (Except.error OpError.validationError, s)
  else
    let d := dd.getD today
    let newOrder := nextOrder (s.items.filter (sameDayWhere uid d))
    let newItem : Item :=
      ⟨newId, uid, trimStr title, some (startOfDay d), ItemStatus.TODO, newOrder,
        none, none⟩
    (Except.ok newItem, ⟨s.items ++ [newItem]⟩)

/-- `addBacklogItem` (`src/app/actions/backlog.ts`). -/
def addBacklogItem (uid : Nat) (title : String) (newId : Nat) (s : Store) :
    Except OpError Item × Store :=
  if (trimStr title).data.length == 0 then
    (Except.error OpError.validationError, s)
  else
    let newOrder := nextOrder (s.items.filter (backlogWhere uid))
    let newItem : Item :=
      ⟨newId, uid, trimStr title, none, ItemStatus.TODO, newOrder, none, none⟩
    (Except.ok newItem, ⟨s.items ++ [newItem]⟩)

/-- The patch argument of `updateInboxItem`
(`Partial<Pick<InboxItem, 'title' | 'status' | 'date' | 'order'>>`). -/
structure InboxUpdates where
  title : Option String
  status : Option UIStatus
  date : Option Int
  order : Option Int
deriving DecidableEq

/-- The patch argument of `updateBacklogItem`
(`Partial<Pick<BacklogItem, 'title' | 'status' | 'order'>>`). -/
structure BacklogUpdates where
  title : Option String
  status : Option UIStatus
  order : Option Int
deriving DecidableEq

/-- `title.trim().length === 0` check on a provided title patch (the
validation inside `updateInboxItem` / `updateBacklogItem`). -/
def badTitlePatch : Option String → Bool
  | some t => (trimStr t).data.length == 0
  | none => false

/-- The `updateData` of `updateInboxItem` applied to a row: trimmed
title, status with its `completedAt` side effect (`DONE` sets
`completedAt = now`, anything else clears it), due date floored to the
start of the requested day, order. -/
def applyInboxUpdates (u : InboxUpdates) (now : Int) (it : Item) : Item :=
  let it1 :=
    match u.title with
    | some t => { it with title := trimStr t }
    | none => it
  let it2 :=
    match u.status with
    | some st =>
        let ns := mapUIToItemStatus st
        { it1 with
          status := ns,
          completedAt := if ns == ItemStatus.DONE then some now else none }
    | none => it1
  let it3 :=
    match u.date with
    | some d => { it2 with dueDate := some (startOfDay d) }
    | none => it2
  match u.order with
  | some o => { it3 with order := o }
  | none => it3

/-- The `updateData` of `updateBacklogItem` applied to a row: trimmed
title, status (with no `completedAt` side effect in the source), order. -/
def applyBacklogUpdates (u : BacklogUpdates) (it : Item) : Item :=
  let it1 :=
    match u.title with
    | some t => { it with title := trimStr t }
    | none => it
  let it2 :=
    match u.status with
    | some st => { it1 with status := mapUIToItemStatus st }
    | none => it1
  match u.order with
  | some o => { it2 with order := o }
  | none => it2

/-- `updateInboxItem` (`src/app/actions/inbox.ts`): title validation
happens while building `updateData`, before the existence check; the
existence check is `{ id, userId, deletedAt: null }` with no due-date
condition. -/
def updateInboxItem (uid id : Nat) (u : InboxUpdates) (now : Int) (s : Store) :
    Except OpError Item × Store :=
  if badTitlePatch u.title then
    (Except.error OpError.validationError, s)
  else
    match s.items.find? (ownedWhere uid id) with
    | none => (Except.error OpError.notFound, s)
    | some it0 =>
        (Except.ok (applyInboxUpdates u now it0),
          ⟨s.items.map fun it =>
            if it.id == id then applyInboxUpdates u now it else it⟩)

/-- `updateBacklogItem` (`src/app/actions/backlog.ts`): like
`updateInboxItem` but the existence check also requires
`dueDate: null`, and a status patch does not touch `completedAt`. -/
def updateBacklogItem (uid id : Nat) (u : BacklogUpdates) (s : Store) :
    Except OpError Item × Store :=
  if badTitlePatch u.title then
    (Except.error OpError.validationError, s)
  else
    match s.items.find? (fun it => ownedWhere uid id it && it.dueDate.isNone) with
    | none => (Except.error OpError.notFound, s)
    | some it0 =>
        (Except.ok (applyBacklogUpdates u it0),
          ⟨s.items.map fun it =>
            if it.id == id then applyBacklogUpdates u it else it⟩)

/-- `moveInboxToBacklog` (`src/app/actions/inbox.ts`): requires an
owned, non-deleted row with `dueDate: { not: null }`; clears `dueDate`
and sets `order` to the Backlog maximum + 1; nothing else is written. -/
def moveInboxToBacklog (uid id : Nat) (s : Store) :
    Except OpError Item × Store :=
  match s.items.find? (fun it => ownedWhere uid id it && it.dueDate.isSome) with
  | none => (Except.error OpError.notFound, s)
  | some it0 =>
      let newOrder := nextOrder (s.items.filter (backlogWhere uid))
      let it1 := { it0 with dueDate := none, order := newOrder }
      (Except.ok it1,
        ⟨s.items.map fun it =>
          if it.id == id then { it with dueDate := none, order := newOrder }
          else it⟩)

/-- `moveBacklogToInbox` (`src/app/actions/backlog.ts`): requires an
owned, non-deleted row with `dueDate: null`; sets `dueDate` to the start
of the target day (`dd`, defaulting to `today`), `order` to that day's
maximum + 1, resets `status` to `TODO` and clears `completedAt`. -/
def moveBacklogToInbox (uid id : Nat) (dd : Option Int) (today : Int)
    (s : Store) : Except OpError Item × Store :=
  let d := dd.getD today
  match s.items.find? (fun it => ownedWhere uid id it && it.dueDate.isNone) with
  | none => (Except.error OpError.notFound, s)
  | some it0 =>
      let newOrder := nextOrder (s.items.filter (sameDayWhere uid d))
      let it1 :=
        { it0 with
          dueDate := some (startOfDay d), order := newOrder,
          status := ItemStatus.TODO, completedAt := none }
      (Except.ok it1,
        ⟨s.items.map fun it =>
          if it.id == id then
            { it with
              dueDate := some (startOfDay d), order := newOrder,
              status := ItemStatus.TODO, completedAt := none }
          else it⟩)

/-- `deleteInboxItem` (`src/app/actions/inbox.ts`): ownership check
`{ id, userId, deletedAt: null }` (no partition condition), then set
`deletedAt = now`. -/
def deleteInboxItem (uid id : Nat) (now : Int) (s : Store) :
    Except OpError Unit × Store :=
  match s.items.find? (ownedWhere uid id) with
  | none => (Except.error OpError.notFound, s)
  | some _ =>
      (Except.ok (),
        ⟨s.items.map fun it =>
          if it.id == id then { it with deletedAt := some now } else it⟩)

/-- A read or successful write never resurrects a soft-deleted row, so
the per-item consistency notion of the spec's §3 invariant. -/
def completedAtConsistent (it : Item) : Prop :=
  it.completedAt ≠ none ↔ mapItemStatusToUI it.status = UIStatus.completed

/-- The §3 invariant `completedAt != null ⟺ status == completed` over a
whole store. -/
def storeConsistent (s : Store) : Prop :=
  ∀ it ∈ s.items, completedAtConsistent it

instance (it : Item) : Decidable (completedAtConsistent it) :=
  inferInstanceAs (Decidable (_ ↔ _))

instance (s : Store) : Decidable (storeConsistent s) :=
  inferInstanceAs (Decidable (∀ it ∈ s.items, completedAtConsistent it))

end Inbox

deriving instance DecidableEq for Except

namespace Inbox

/-- Store reached from empty by `addBacklogItem(title: "t")` as user 1. -/
def s_oneBacklog : Store := (addBacklogItem 1 "t" 1 ⟨[]⟩).2

/-- `s_oneBacklog` after `updateBacklogItem` with a `completed` status
patch. -/
def s_backlogDone : Store :=
  (updateBacklogItem 1 1 ⟨none, some UIStatus.completed, none⟩ s_oneBacklog).2

/-- Store reached from empty by `addInboxItem(title: "task", due day 0)`
as user 1 (with `today` = day 0). -/
def s_inboxTask : Store := (addInboxItem 1 "task" (some 0) 0 1 ⟨[]⟩).2

/-- `s_inboxTask` after `updateInboxItem` with a `completed` status
patch at time 10 (inside day 0). -/
def s_taskDone : Store :=
  (updateInboxItem 1 1 ⟨none, some UIStatus.completed, none, none⟩ 10
    s_inboxTask).2

/-- `s_taskDone` after `moveInboxToBacklog`. -/
def s_doneInBacklog : Store := (moveInboxToBacklog 1 1 s_taskDone).2

/-- `s_taskDone` after `updateInboxItem` with a date patch moving the
due date to day 1. -/
def s_donePostponed : Store :=
  (updateInboxItem 1 1 ⟨none, none, some 1, none⟩ 20 s_taskDone).2

/-- Store reached from empty by `addBacklogItem("A")` then
`addBacklogItem("B")` as user 1. -/
def s_backlogAB : Store :=
  (addBacklogItem 1 "B" 2 (addBacklogItem 1 "A" 1 ⟨[]⟩).2).2

/-- Store reached from empty by `addInboxItem("X", due day 0)` then
`addInboxItem("Y", due day 0)` as user 1. -/
def s_inboxXY : Store :=
  (addInboxItem 1 "Y" (some 0) 0 2 (addInboxItem 1 "X" (some 0) 0 1 ⟨[]⟩).2).2

theorem mem_insertByAsc {a it : Item} {l : List Item} :
    a ∈ insertByAsc it l ↔ a = it ∨ a ∈ l := by
  induction l with
  | nil => simp [insertByAsc]
  | cons x xs ih =>
    by_cases h : it.order ≤ x.order
    · simp [insertByAsc, h, List.mem_cons]
    · simp only [insertByAsc, if_neg h, List.mem_cons, ih]
      tauto

theorem mem_sortByOrderAsc {a : Item} {l : List Item} :
    a ∈ sortByOrderAsc l ↔ a ∈ l := by
  induction l with
  | nil => simp [sortByOrderAsc]
  | cons x xs ih => simp [sortByOrderAsc, mem_insertByAsc, ih]

theorem mem_insertByDesc {a it : Item} {l : List Item} :
    a ∈ insertByDesc it l ↔ a = it ∨ a ∈ l := by
  induction l with
  | nil => simp [insertByDesc]
  | cons x xs ih =>
    by_cases h : x.order ≤ it.order
    · simp [insertByDesc, h, List.mem_cons]
    · simp only [insertByDesc, if_neg h, List.mem_cons, ih]
      tauto

theorem mem_sortByOrderDesc {a : Item} {l : List Item} :
    a ∈ sortByOrderDesc l ↔ a ∈ l := by
  induction l with
  | nil => simp [sortByOrderDesc]
  | cons x xs ih => simp [sortByOrderDesc, mem_insertByDesc, ih]

theorem pairwise_insertByAsc {it : Item} {l : List Item}
    (h : l.Pairwise (fun a b => a.order ≤ b.order)) :
    (insertByAsc it l).Pairwise (fun a b => a.order ≤ b.order) := by
  induction l with
  | nil => simp [insertByAsc]
  | cons x xs ih =>
    rcases List.pairwise_cons.mp h with ⟨hx, hxs⟩
    by_cases hle : it.order ≤ x.order
    · rw [insertByAsc, if_pos hle]
      refine List.Pairwise.cons ?_ h
      intro b hb
      rcases List.mem_cons.mp hb with rfl | hb
      · exact hle
      · exact le_trans hle (hx b hb)
    · rw [insertByAsc, if_neg hle]
      refine List.Pairwise.cons ?_ (ih hxs)
      intro b hb
      rcases mem_insertByAsc.mp hb with rfl | hb
      · exact le_of_not_le hle
      · exact hx b hb

theorem pairwise_sortByOrderAsc (l : List Item) :
    (sortByOrderAsc l).Pairwise (fun a b => a.order ≤ b.order) := by
  induction l with
  | nil => simp [sortByOrderAsc]
  | cons x xs ih => exact pairwise_insertByAsc ih

theorem pairwise_insertByDesc {it : Item} {l : List Item}
    (h : l.Pairwise (fun a b => b.order ≤ a.order)) :
    (insertByDesc it l).Pairwise (fun a b => b.order ≤ a.order) := by
  induction l with
  | nil => simp [insertByDesc]
  | cons x xs ih =>
    rcases List.pairwise_cons.mp h with ⟨hx, hxs⟩
    by_cases hle : x.order ≤ it.order
    · rw [insertByDesc, if_pos hle]
      refine List.Pairwise.cons ?_ h
      intro b hb
      rcases List.mem_cons.mp hb with rfl | hb
      · exact hle
      · exact le_trans (hx b hb) hle
    · rw [insertByDesc, if_neg hle]
      refine List.Pairwise.cons ?_ (ih hxs)
      intro b hb
      rcases mem_insertByDesc.mp hb with rfl | hb
      · exact le_of_not_le hle
      · exact hx b hb

theorem pairwise_sortByOrderDesc (l : List Item) :
    (sortByOrderDesc l).Pairwise (fun a b => b.order ≤ a.order) := by
  induction l with
  | nil => simp [sortByOrderDesc]
  | cons x xs ih => exact pairwise_insertByDesc ih

theorem maxOrder_spec {l : List Item} {m : Int} (h : maxOrder l = some m) :
    (∀ x ∈ l, x.order ≤ m) ∧ ∃ x ∈ l, x.order = m := by
  unfold maxOrder at h
  cases hs : sortByOrderDesc l with
  | nil => rw [hs] at h; simp at h
  | cons y t =>
    rw [hs] at h
    simp only [List.head?, Option.map_some', Option.some.injEq] at h
    have hp := pairwise_sortByOrderDesc l
    rw [hs] at hp
    have hy : y ∈ l := mem_sortByOrderDesc.mp (hs ▸ List.mem_cons_self y t)
    constructor
    · intro x hx
      have hx2 : x ∈ y :: t := hs ▸ mem_sortByOrderDesc.mpr hx
      rcases List.mem_cons.mp hx2 with rfl | hxt
      · exact le_of_eq h
      · exact h ▸ (List.pairwise_cons.mp hp).1 x hxt
    · exact ⟨y, hy, h⟩

theorem maxOrder_eq_none {l : List Item} (h : maxOrder l = none) : l = [] := by
  cases l with
  | nil => rfl
  | cons x xs =>
    exfalso
    have hx : x ∈ sortByOrderDesc (x :: xs) :=
      mem_sortByOrderDesc.mpr (List.mem_cons_self x xs)
    unfold maxOrder at h
    cases hs : sortByOrderDesc (x :: xs) with
    | nil => rw [hs] at hx; exact List.not_mem_nil x hx
    | cons y t => rw [hs] at h; simp at h

theorem nextOrder_spec (l : List Item) :
    (∀ x ∈ l, x.order < nextOrder l) ∧ (l = [] → nextOrder l = 0) ∧
      (l ≠ [] → ∃ x ∈ l, nextOrder l = x.order + 1) := by
  cases hm : maxOrder l with
  | none =>
    have hl := maxOrder_eq_none hm
    have hn : nextOrder l = 0 := by unfold nextOrder; rw [hm]
    subst hl
    exact ⟨by simp, fun _ => hn, fun h => absurd rfl h⟩
  | some m =>
    rcases maxOrder_spec hm with ⟨hub, x, hx, hxm⟩
    have hn : nextOrder l = m + 1 := by unfold nextOrder; rw [hm]
    refine ⟨fun y hy => ?_, fun he => ?_, fun _ => ⟨x, hx, by omega⟩⟩
    · have := hub y hy
      omega
    · subst he
      simp at hx

theorem startOfDay_le_endOfDay (d : Int) : startOfDay d ≤ endOfDay d := by
  unfold startOfDay endOfDay
  omega

theorem dueInRange_iff {d : Int} {it : Item} :
    dueInRange d it = true ↔
      ∃ t, it.dueDate = some t ∧ startOfDay d ≤ t ∧ t ≤ endOfDay d := by
  cases h : it.dueDate <;> simp [dueInRange, h]

theorem overdueNotDone_iff {d : Int} {it : Item} :
    overdueNotDone d it = true ↔
      ∃ t, it.dueDate = some t ∧ t < startOfDay d ∧
        mapItemStatusToUI it.status ≠ UIStatus.completed := by
  have hst : it.status ≠ ItemStatus.DONE ↔
      mapItemStatusToUI it.status ≠ UIStatus.completed := by
    cases it.status <;> simp [mapItemStatusToUI]
  cases h : it.dueDate <;> simp [overdueNotDone, h, hst]

theorem completedInRange_iff {d : Int} {it : Item} :
    completedInRange d it = true ↔
      ∃ c, it.completedAt = some c ∧ startOfDay d ≤ c ∧ c ≤ endOfDay d := by
  cases h : it.completedAt <;> simp [completedInRange, h]

theorem inboxWhere_iff {uid : Nat} {d : Int} {it : Item} :
    inboxWhere uid d it = true ↔
      it.userId = uid ∧ it.deletedAt = none ∧
        ((∃ t, it.dueDate = some t ∧ startOfDay d ≤ t ∧ t ≤ endOfDay d) ∨
         (∃ t, it.dueDate = some t ∧ t < startOfDay d ∧
            mapItemStatusToUI it.status ≠ UIStatus.completed) ∨
         (∃ c, it.completedAt = some c ∧ startOfDay d ≤ c ∧ c ≤ endOfDay d)) := by
  simp only [inboxWhere, Bool.and_eq_true, Bool.or_eq_true, beq_iff_eq,
    dueInRange_iff, overdueNotDone_iff, completedInRange_iff,
    Option.isNone_iff_eq_none, and_assoc, or_assoc]

theorem backlogWhere_iff {uid : Nat} {it : Item} :
    backlogWhere uid it = true ↔
      it.userId = uid ∧ it.dueDate = none ∧ it.deletedAt = none := by
  simp only [backlogWhere, Bool.and_eq_true, beq_iff_eq,
    Option.isNone_iff_eq_none, and_assoc]

theorem ownedWhere_iff {uid id : Nat} {it : Item} :
    ownedWhere uid id it = true ↔
      it.id = id ∧ it.userId = uid ∧ it.deletedAt = none := by
  simp only [ownedWhere, Bool.and_eq_true, beq_iff_eq,
    Option.isNone_iff_eq_none, and_assoc]

theorem applyInboxUpdates_status_none {u : InboxUpdates} {now : Int}
    {it : Item} (h : u.status = none) :
    (applyInboxUpdates u now it).status = it.status ∧
      (applyInboxUpdates u now it).completedAt = it.completedAt := by
  unfold applyInboxUpdates
  rw [h]
  cases u.title <;> cases u.date <;> cases u.order <;> simp

theorem applyInboxUpdates_status_some {u : InboxUpdates} {now : Int}
    {it : Item} {st : UIStatus} (h : u.status = some st) :
    (applyInboxUpdates u now it).status = mapUIToItemStatus st ∧
      (applyInboxUpdates u now it).completedAt =
        (if mapUIToItemStatus st == ItemStatus.DONE then some now else none) := by
  unfold applyInboxUpdates
  rw [h]
  cases u.title <;> cases u.date <;> cases u.order <;> simp

theorem applyBacklogUpdates_completedAt {u : BacklogUpdates} {it : Item} :
    (applyBacklogUpdates u it).completedAt = it.completedAt := by
  unfold applyBacklogUpdates
  cases u.title <;> cases u.status <;> cases u.order <;> simp

theorem applyBacklogUpdates_status_none {u : BacklogUpdates} {it : Item}
    (h : u.status = none) :
    (applyBacklogUpdates u it).status = it.status := by
  unfold applyBacklogUpdates
  rw [h]
  cases u.title <;> cases u.order <;> simp

theorem applyBacklogUpdates_status_some {u : BacklogUpdates} {it : Item}
    {st : UIStatus} (h : u.status = some st) :
    (applyBacklogUpdates u it).status = mapUIToItemStatus st := by
  unfold applyBacklogUpdates
  rw [h]
  cases u.title <;> cases u.order <;> simp

theorem consistent_applyInboxUpdates {u : InboxUpdates} {now : Int}
    {it : Item} (h : completedAtConsistent it) :
    completedAtConsistent (applyInboxUpdates u now it) := by
  cases hst : u.status with
  | none =>
    rcases applyInboxUpdates_status_none hst with ⟨h1, h2⟩
    unfold completedAtConsistent at h ⊢
    rw [h1, h2]
    exact h
  | some st =>
    rcases applyInboxUpdates_status_some hst with ⟨h1, h2⟩
    unfold completedAtConsistent
    rw [h1, h2]
    cases st <;> simp [mapUIToItemStatus, mapItemStatusToUI]

theorem consistent_applyBacklogUpdates {u : BacklogUpdates} {it : Item}
    (h0 : u.status = none) (h : completedAtConsistent it) :
    completedAtConsistent (applyBacklogUpdates u it) := by
  unfold completedAtConsistent at h ⊢
  rw [applyBacklogUpdates_completedAt, applyBacklogUpdates_status_none h0]
  exact h

theorem storeConsistent_map {s : Store} {f : Item → Item}
    (h : storeConsistent s)
    (hf : ∀ it, completedAtConsistent it → completedAtConsistent (f it)) :
    storeConsistent ⟨s.items.map f⟩ := by
  intro it hit
  rcases List.mem_map.mp hit with ⟨a, ha, rfl⟩
  exact hf a (h a ha)

theorem storeConsistent_append {s : Store} {it : Item}
    (h : storeConsistent s) (hit : completedAtConsistent it) :
    storeConsistent ⟨s.items ++ [it]⟩ := by
  intro x hx
  rcases List.mem_append.mp hx with hx | hx
  · exact h x hx
  · rw [List.mem_singleton] at hx
    subst hx
    exact hit

theorem storeConsistent_addInboxItem (uid : Nat) (title : String)
    (dd : Option Int) (today : Int) (newId : Nat) (s : Store)
    (h : storeConsistent s) :
    storeConsistent (addInboxItem uid title dd today newId s).2 := by
  unfold addInboxItem
  split
  · exact h
  · exact storeConsistent_append h
      (by simp [completedAtConsistent, mapItemStatusToUI])

theorem storeConsistent_addBacklogItem (uid : Nat) (title : String)
    (newId : Nat) (s : Store) (h : storeConsistent s) :
    storeConsistent (addBacklogItem uid title newId s).2 := by
  unfold addBacklogItem
  split
  · exact h
  · exact storeConsistent_append h
      (by simp [completedAtConsistent, mapItemStatusToUI])

theorem storeConsistent_updateInboxItem (uid id : Nat) (u : InboxUpdates)
    (now : Int) (s : Store) (h : storeConsistent s) :
    storeConsistent (updateInboxItem uid id u now s).2 := by
  unfold updateInboxItem
  split
  · exact h
  · split
    · exact h
    · refine storeConsistent_map h fun it hit => ?_
      by_cases hid : it.id = id
      · simpa [hid] using consistent_applyInboxUpdates hit
      · simpa [hid] using hit

theorem storeConsistent_updateBacklogItem (uid id : Nat) (u : BacklogUpdates)
    (s : Store) (h0 : u.status = none) (h : storeConsistent s) :
    storeConsistent (updateBacklogItem uid id u s).2 := by
  unfold updateBacklogItem
  split
  · exact h
  · split
    · exact h
    · refine storeConsistent_map h fun it hit => ?_
      by_cases hid : it.id = id
      · simpa [hid] using consistent_applyBacklogUpdates h0 hit
      · simpa [hid] using hit

theorem storeConsistent_moveInboxToBacklog (uid id : Nat) (s : Store)
    (h : storeConsistent s) :
    storeConsistent (moveInboxToBacklog uid id s).2 := by
  unfold moveInboxToBacklog
  split
  · exact h
  · refine storeConsistent_map h fun it hit => ?_
    by_cases hid : it.id = id
    · unfold completedAtConsistent at hit ⊢
      simpa [hid] using hit
    · simpa [hid] using hit

theorem storeConsistent_moveBacklogToInbox (uid id : Nat) (dd : Option Int)
    (today : Int) (s : Store) (h : storeConsistent s) :
    storeConsistent (moveBacklogToInbox uid id dd today s).2 := by
  unfold moveBacklogToInbox
  split
  · exact h
  · refine storeConsistent_map h fun it hit => ?_
    by_cases hid : it.id = id
    · simp [hid, completedAtConsistent, mapItemStatusToUI]
    · simpa [hid] using hit

theorem storeConsistent_deleteInboxItem (uid id : Nat) (now : Int) (s : Store)
    (h : storeConsistent s) :
    storeConsistent (deleteInboxItem uid id now s).2 := by
  unfold deleteInboxItem
  split
  · exact h
  · refine storeConsistent_map h fun it hit => ?_
    by_cases hid : it.id = id
    · unfold completedAtConsistent at hit ⊢
      simpa [hid] using hit
    · simpa [hid] using hit

theorem updateInboxItem_ok_shape {uid id : Nat} {u : InboxUpdates} {now : Int}
    {s : Store} {it' : Item}
    (h : (updateInboxItem uid id u now s).1 = Except.ok it') :
    ∃ it0, s.items.find? (ownedWhere uid id) = some it0 ∧
      it' = applyInboxUpdates u now it0 := by
  unfold updateInboxItem at h
  by_cases hb : badTitlePatch u.title = true
  · rw [if_pos hb] at h
    simp at h
  · rw [if_neg hb] at h
    cases hf : s.items.find? (ownedWhere uid id) with
    | none => rw [hf] at h; simp at h
    | some it0 =>
      rw [hf] at h
      simp only [Except.ok.injEq] at h
      exact ⟨it0, rfl, h.symm⟩

theorem deleteInboxItem_none {uid id : Nat} {now : Int} {s : Store}
    (hnone : s.items.find? (ownedWhere uid id) = none) :
    deleteInboxItem uid id now s = (Except.error OpError.notFound, s) := by
  unfold deleteInboxItem
  rw [hnone]

theorem ownedBacklogWhere_iff {uid id : Nat} {it : Item} :
    (ownedWhere uid id it && it.dueDate.isNone) = true ↔
      it.id = id ∧ it.userId = uid ∧ it.deletedAt = none ∧
        it.dueDate = none := by
  simp only [Bool.and_eq_true, ownedWhere_iff, Option.isNone_iff_eq_none,
    and_assoc]

theorem ownedInboxWhere_iff {uid id : Nat} {it : Item} :
    (ownedWhere uid id it && it.dueDate.isSome) = true ↔
      it.id = id ∧ it.userId = uid ∧ it.deletedAt = none ∧
        it.dueDate ≠ none := by
  simp only [Bool.and_eq_true, ownedWhere_iff, Option.isSome_iff_ne_none,
    and_assoc]

/-- C1: `getInboxItems` returns exactly the owner's non-soft-deleted
items satisfying at least one of the visibility rules — (1) `dueDate`
within `[start(D), end(D)]`; (2) `dueDate < start(D)` and status not
`completed`; (3) `completedAt` within `[start(D), end(D)]` — an item is
in the result if and only if some rule applies. -/
theorem getInboxItems_mem_iff (uid : Nat) (d : Int) (s : Store) (it : Item) :
    it ∈ getInboxItems uid d s ↔
      it ∈ s.items ∧ it.userId = uid ∧ it.deletedAt = none ∧
        ((∃ t, it.dueDate = some t ∧ startOfDay d ≤ t ∧ t ≤ endOfDay d) ∨
         (∃ t, it.dueDate = some t ∧ t < startOfDay d ∧
            mapItemStatusToUI it.status ≠ UIStatus.completed) ∨
         (∃ c, it.completedAt = some c ∧ startOfDay d ≤ c ∧ c ≤ endOfDay d)) := by
  unfold getInboxItems
  rw [mem_sortByOrderAsc, List.mem_filter, inboxWhere_iff]

/-- C2 fails on the code: a status patch through `updateBacklogItem`
sets `status = DONE` without touching `completedAt`.  On the store
reached from empty by `addBacklogItem` then `updateBacklogItem` with a
`completed` status patch, the row has `status = DONE` (completed) and
`completedAt = null`. -/
theorem updateBacklogItem_status_breaks_invariant :
    succeeded
        (updateBacklogItem 1 1 ⟨none, some UIStatus.completed, none⟩
          s_oneBacklog).1 = true ∧
      s_backlogDone.items =
        [⟨1, 1, "t", none, ItemStatus.DONE, 0, none, none⟩] ∧
      ¬ storeConsistent s_backlogDone := by
  exact ⟨by decide, by decide, by decide⟩

/-- C2 (amended): the invariant `completedAt != null ↔ status ==
completed` is preserved by creation, by `updateInboxItem` with any
patch (a status patch sets `completedAt = now` on a transition into
`completed` and clears it on any other target status), by both moves,
by soft deletion, and by `updateBacklogItem` whenever its patch has no
status field; `updateBacklogItem` status patches are excluded because
the source changes `status` there without touching `completedAt`. -/
theorem completedAt_invariant_amended :
    (∀ uid title dd today newId s, storeConsistent s →
        storeConsistent (addInboxItem uid title dd today newId s).2) ∧
    (∀ uid title newId s, storeConsistent s →
        storeConsistent (addBacklogItem uid title newId s).2) ∧
    (∀ uid id u now s, storeConsistent s →
        storeConsistent (updateInboxItem uid id u now s).2) ∧
    (∀ uid id u s, u.status = none → storeConsistent s →
        storeConsistent (updateBacklogItem uid id u s).2) ∧
    (∀ uid id s, storeConsistent s →
        storeConsistent (moveInboxToBacklog uid id s).2) ∧
    (∀ uid id dd today s, storeConsistent s →
        storeConsistent (moveBacklogToInbox uid id dd today s).2) ∧
    (∀ uid id now s, storeConsistent s →
        storeConsistent (deleteInboxItem uid id now s).2) ∧
    (∀ uid id u now s it', u.status = some UIStatus.completed →
        (updateInboxItem uid id u now s).1 = Except.ok it' →
        it'.completedAt = some now) ∧
    (∀ uid id u now s it' st, u.status = some st → st ≠ UIStatus.completed →
        (updateInboxItem uid id u now s).1 = Except.ok it' →
        it'.completedAt = none) := by
  refine ⟨storeConsistent_addInboxItem, storeConsistent_addBacklogItem,
    storeConsistent_updateInboxItem, storeConsistent_updateBacklogItem,
    storeConsistent_moveInboxToBacklog, storeConsistent_moveBacklogToInbox,
    storeConsistent_deleteInboxItem, ?_, ?_⟩
  · intro uid id u now s it' hst hok
    rcases updateInboxItem_ok_shape hok with ⟨it0, -, rfl⟩
    rcases applyInboxUpdates_status_some hst with ⟨-, h2⟩
    rw [h2]
    simp [mapUIToItemStatus]
  · intro uid id u now s it' st hst hne hok
    rcases updateInboxItem_ok_shape hok with ⟨it0, -, rfl⟩
    rcases applyInboxUpdates_status_some hst with ⟨-, h2⟩
    rw [h2]
    cases st with
    | completed => exact absurd rfl hne
    | not_started => simp [mapUIToItemStatus]
    | in_progress => simp [mapUIToItemStatus]

/-- C2 witness: each part of the amended invariant theorem applied on a
concrete store and patch, with its hypotheses discharged by
computation. -/
theorem completedAt_invariant_amended_witness :
    storeConsistent (addInboxItem 1 "task" (some 0) 0 1 ⟨[]⟩).2 ∧
    storeConsistent (addBacklogItem 1 "t" 1 ⟨[]⟩).2 ∧
    storeConsistent
      (updateInboxItem 1 1 ⟨none, some UIStatus.completed, none, none⟩ 10
        s_inboxTask).2 ∧
    storeConsistent
      (updateBacklogItem 1 1 ⟨some " x ", none, none⟩ s_oneBacklog).2 ∧
    storeConsistent (moveInboxToBacklog 1 1 s_taskDone).2 ∧
    storeConsistent (moveBacklogToInbox 1 1 (some 0) 0 s_oneBacklog).2 ∧
    storeConsistent (deleteInboxItem 1 1 5 s_oneBacklog).2 ∧
    (⟨1, 1, "task", some 0, ItemStatus.DONE, 0, some 10, none⟩ :
        Item).completedAt = some 10 ∧
    (⟨1, 1, "task", some 0, ItemStatus.IN_PROGRESS, 0, none, none⟩ :
        Item).completedAt = none :=
  ⟨completedAt_invariant_amended.1 1 "task" (some 0) 0 1 ⟨[]⟩ (by decide),
   completedAt_invariant_amended.2.1 1 "t" 1 ⟨[]⟩ (by decide),
   completedAt_invariant_amended.2.2.1 1 1
     ⟨none, some UIStatus.completed, none, none⟩ 10 s_inboxTask (by decide),
   completedAt_invariant_amended.2.2.2.1 1 1 ⟨some " x ", none, none⟩
     s_oneBacklog rfl (by decide),
   completedAt_invariant_amended.2.2.2.2.1 1 1 s_taskDone (by decide),
   completedAt_invariant_amended.2.2.2.2.2.1 1 1 (some 0) 0 s_oneBacklog
     (by decide),
   completedAt_invariant_amended.2.2.2.2.2.2.1 1 1 5 s_oneBacklog (by decide),
   completedAt_invariant_amended.2.2.2.2.2.2.2.1 1 1
     ⟨none, some UIStatus.completed, none, none⟩ 10 s_inboxTask _ rfl
     (by decide),
   completedAt_invariant_amended.2.2.2.2.2.2.2.2 1 1
     ⟨none, some UIStatus.in_progress, none, none⟩ 10 s_inboxTask _
     UIStatus.in_progress rfl (by decide) (by decide)⟩

/-- C3 fails on the code: from the empty store, add an Inbox item due
on day 0, complete it at time 10, then move it to the Backlog.
`moveInboxToBacklog` keeps `completedAt`, and rule 3 of `getInboxItems`
has no due-date condition, so the same row is returned both by
`getBacklogItems` and by `getInboxItems` for day 0. -/
theorem item_in_both_lists_reachable :
    succeeded (addInboxItem 1 "task" (some 0) 0 1 ⟨[]⟩).1 = true ∧
    succeeded
      (updateInboxItem 1 1 ⟨none, some UIStatus.completed, none, none⟩ 10
        s_inboxTask).1 = true ∧
    succeeded (moveInboxToBacklog 1 1 s_taskDone).1 = true ∧
    (⟨1, 1, "task", none, ItemStatus.DONE, 0, some 10, none⟩ : Item) ∈
      getBacklogItems 1 s_doneInBacklog ∧
    (⟨1, 1, "task", none, ItemStatus.DONE, 0, some 10, none⟩ : Item) ∈
      getInboxItems 1 0 s_doneInBacklog := by
  exact ⟨by decide, by decide, by decide, by decide, by decide⟩

/-- C3 (amended): an item visible in both `getBacklogItems` and
`getInboxItems` for a day `d` is necessarily a Backlog row
(`dueDate = null`) whose `completedAt` falls within the displayed day
(rule 3); in particular the two lists are disjoint on every item whose
`completedAt` does not fall within the displayed day. -/
theorem both_lists_overlap_only_rule3 (uid : Nat) (d : Int) (s : Store)
    (it : Item) (hb : it ∈ getBacklogItems uid s)
    (hi : it ∈ getInboxItems uid d s) :
    it.dueDate = none ∧
      ∃ c, it.completedAt = some c ∧ startOfDay d ≤ c ∧ c ≤ endOfDay d := by
  unfold getBacklogItems at hb
  rw [mem_sortByOrderDesc, List.mem_filter, backlogWhere_iff] at hb
  unfold getInboxItems at hi
  rw [mem_sortByOrderAsc, List.mem_filter, inboxWhere_iff] at hi
  have hdd : it.dueDate = none := hb.2.2.1
  refine ⟨hdd, ?_⟩
  rcases hi.2.2.2 with ⟨t, ht, -⟩ | ⟨t, ht, -⟩ | h3
  · rw [hdd] at ht
    cases ht
  · rw [hdd] at ht
    cases ht
  · exact h3

/-- C3 witness: the amended overlap theorem applied to the reachable
store of the counterexample chain. -/
theorem both_lists_overlap_only_rule3_witness :
    (⟨1, 1, "task", none, ItemStatus.DONE, 0, some 10, none⟩ :
        Item).dueDate = none :=
  (both_lists_overlap_only_rule3 1 0 s_doneInBacklog
    ⟨1, 1, "task", none, ItemStatus.DONE, 0, some 10, none⟩
    (by decide) (by decide)).1

/-- C4 fails on the code: rule 3 of `getInboxItems` carries no due-date
bound, so a row whose `dueDate` (day 1, i.e. 86400000) lies after the
display day's end (`endOfDay 0 = 86399999`) is still returned for day 0
because its `completedAt = 10` falls on day 0.  The store is reachable:
add an item due day 0, complete it at time 10, then patch its date to
day 1 (a date patch does not touch `completedAt`). -/
theorem future_dueDate_listed_when_completed_today :
    succeeded
      (updateInboxItem 1 1 ⟨none, none, some 1, none⟩ 20 s_taskDone).1
        = true ∧
    s_donePostponed.items =
      [⟨1, 1, "task", some 86400000, ItemStatus.DONE, 0, some 10, none⟩] ∧
    endOfDay 0 < 86400000 ∧
    (⟨1, 1, "task", some 86400000, ItemStatus.DONE, 0, some 10, none⟩ :
        Item) ∈ getInboxItems 1 0 s_donePostponed := by
  exact ⟨by decide, by decide, by decide, by decide⟩

/-- C4 (amended): an item whose `dueDate` lies strictly after `end(D)`
is never returned by `getInboxItems` for `D` unless its `completedAt`
falls within `[start(D), end(D)]` (rule 3, which ignores the due
date). -/
theorem future_dueDate_excluded_amended (uid : Nat) (d : Int) (s : Store)
    (it : Item) (t : Int) (hdue : it.dueDate = some t)
    (hfut : endOfDay d < t)
    (hc : ∀ c, it.completedAt = some c →
      ¬(startOfDay d ≤ c ∧ c ≤ endOfDay d)) :
    it ∉ getInboxItems uid d s := by
  intro hmem
  unfold getInboxItems at hmem
  rw [mem_sortByOrderAsc, List.mem_filter, inboxWhere_iff] at hmem
  rcases hmem.2.2.2 with ⟨t2, ht2, h1, h2⟩ | ⟨t2, ht2, h1, -⟩ | ⟨c, hcc, h1, h2⟩
  · rw [hdue] at ht2
    injection ht2 with he
    subst he
    omega
  · rw [hdue] at ht2
    injection ht2 with he
    subst he
    have := startOfDay_le_endOfDay d
    omega
  · exact hc c hcc ⟨h1, h2⟩

/-- C4 witness: the amended exclusion theorem applied to a concrete
store holding one item due on day 1 and never completed, displayed on
day 0. -/
theorem future_dueDate_excluded_amended_witness :
    (⟨1, 1, "t", some 86400000, ItemStatus.TODO, 0, none, none⟩ : Item) ∉
      getInboxItems 1 0
        ⟨[⟨1, 1, "t", some 86400000, ItemStatus.TODO, 0, none, none⟩]⟩ :=
  future_dueDate_excluded_amended 1 0
    ⟨[⟨1, 1, "t", some 86400000, ItemStatus.TODO, 0, none, none⟩]⟩
    ⟨1, 1, "t", some 86400000, ItemStatus.TODO, 0, none, none⟩
    86400000 rfl (by decide) (by intro c hcc; cases hcc)

/-- C5: on an owned, non-deleted Backlog row (`dueDate = null`),
`moveBacklogToInbox` succeeds and fully resets the row regardless of
its prior state: `dueDate` becomes the start of the target day
(defaulting to today), `status` becomes `TODO` (`not_started`),
`completedAt` is cleared, and the new `order` is strictly greater than
the order of every non-deleted item of the caller already due on that
day, equals (max such order) + 1 when the day is non-empty, and is 0
when it is empty. -/
theorem moveBacklogToInbox_full_reset (uid id : Nat) (dd : Option Int)
    (today : Int) (s : Store) (it0 : Item)
    (hfind : s.items.find?
        (fun it => ownedWhere uid id it && it.dueDate.isNone) = some it0) :
    succeeded (moveBacklogToInbox uid id dd today s).1 = true ∧
    ∀ it', (moveBacklogToInbox uid id dd today s).1 = Except.ok it' →
      it'.dueDate = some (startOfDay (dd.getD today)) ∧
      it'.status = ItemStatus.TODO ∧
      it'.completedAt = none ∧
      (∀ x ∈ s.items.filter (sameDayWhere uid (dd.getD today)),
        x.order < it'.order) ∧
      (s.items.filter (sameDayWhere uid (dd.getD today)) = [] →
        it'.order = 0) ∧
      (s.items.filter (sameDayWhere uid (dd.getD today)) ≠ [] →
        ∃ x ∈ s.items.filter (sameDayWhere uid (dd.getD today)),
          it'.order = x.order + 1) := by
  simp only [moveBacklogToInbox, hfind]
  refine ⟨rfl, fun it' hit => ?_⟩
  cases hit
  rcases nextOrder_spec (s.items.filter (sameDayWhere uid (dd.getD today)))
    with ⟨h1, h2, h3⟩
  exact ⟨rfl, rfl, rfl, h1, h2, h3⟩

/-- C5 witness: the full-reset theorem applied to the one-Backlog-item
store, with the find hypothesis evaluated by computation. -/
theorem moveBacklogToInbox_full_reset_witness :
    succeeded (moveBacklogToInbox 1 1 (some 0) 0 s_oneBacklog).1 = true :=
  (moveBacklogToInbox_full_reset 1 1 (some 0) 0 s_oneBacklog
    ⟨1, 1, "t", none, ItemStatus.TODO, 0, none, none⟩ (by decide)).1

/-- C6: on an owned, non-deleted Inbox row (`dueDate != null`),
`moveInboxToBacklog` succeeds, clears `dueDate`, never changes the
row's `status`, and assigns an `order` strictly greater than the order
of every current non-deleted Backlog item of the caller, equal to (max
such order) + 1 when the Backlog is non-empty and 0 when it is
empty. -/
theorem moveInboxToBacklog_spec (uid id : Nat) (s : Store) (it0 : Item)
    (hfind : s.items.find?
        (fun it => ownedWhere uid id it && it.dueDate.isSome) = some it0) :
    succeeded (moveInboxToBacklog uid id s).1 = true ∧
    ∀ it', (moveInboxToBacklog uid id s).1 = Except.ok it' →
      it'.dueDate = none ∧
      it'.status = it0.status ∧
      (∀ x ∈ s.items.filter (backlogWhere uid), x.order < it'.order) ∧
      (s.items.filter (backlogWhere uid) = [] → it'.order = 0) ∧
      (s.items.filter (backlogWhere uid) ≠ [] →
        ∃ x ∈ s.items.filter (backlogWhere uid),
          it'.order = x.order + 1) := by
  simp only [moveInboxToBacklog, hfind]
  refine ⟨rfl, fun it' hit => ?_⟩
  cases hit
  rcases nextOrder_spec (s.items.filter (backlogWhere uid)) with ⟨h1, h2, h3⟩
  exact ⟨rfl, rfl, h1, h2, h3⟩

/-- C6 witness: the move-to-Backlog theorem applied to the store with
one completed Inbox item. -/
theorem moveInboxToBacklog_spec_witness :
    succeeded (moveInboxToBacklog 1 1 s_taskDone).1 = true :=
  (moveInboxToBacklog_spec 1 1 s_taskDone
    ⟨1, 1, "task", some 0, ItemStatus.DONE, 0, some 10, none⟩ (by decide)).1

/-- C10: on any row it accepts, `moveInboxToBacklog` leaves
`completedAt` exactly as it was — the write set is `dueDate` and
`order` only — so a completed item keeps its non-null `completedAt`
while in the Backlog. -/
theorem moveInboxToBacklog_preserves_completedAt (uid id : Nat) (s : Store)
    (it0 : Item)
    (hfind : s.items.find?
        (fun it => ownedWhere uid id it && it.dueDate.isSome) = some it0) :
    succeeded (moveInboxToBacklog uid id s).1 = true ∧
    ∀ it', (moveInboxToBacklog uid id s).1 = Except.ok it' →
      it'.completedAt = it0.completedAt := by
  simp only [moveInboxToBacklog, hfind]
  exact ⟨rfl, fun it' hit => by cases hit; rfl⟩

/-- C10 witness: the completedAt-preservation theorem applied to the
store with one completed Inbox item, whose `completedAt = some 10`
survives the move. -/
theorem moveInboxToBacklog_preserves_completedAt_witness :
    succeeded (moveInboxToBacklog 1 1 s_taskDone).1 = true ∧
    (⟨1, 1, "task", none, ItemStatus.DONE, 0, some 10, none⟩ :
        Item).completedAt =
      (⟨1, 1, "task", some 0, ItemStatus.DONE, 0, some 10, none⟩ :
        Item).completedAt :=
  ⟨(moveInboxToBacklog_preserves_completedAt 1 1 s_taskDone
      ⟨1, 1, "task", some 0, ItemStatus.DONE, 0, some 10, none⟩ (by decide)).1,
   (moveInboxToBacklog_preserves_completedAt 1 1 s_taskDone
      ⟨1, 1, "task", some 0, ItemStatus.DONE, 0, some 10, none⟩ (by decide)).2
     ⟨1, 1, "task", none, ItemStatus.DONE, 0, some 10, none⟩ (by decide)⟩

/-- C7 fails on the code: `updateInboxItem`'s existence check
(`{ id, userId, deletedAt: null }`) carries no partition condition, so
an order patch through `updateInboxItem` addressed at a row that sits
in the Backlog partition (`dueDate = null`, reachable via
`addBacklogItem`) succeeds instead of failing with NotFound. -/
theorem updateInboxItem_succeeds_on_backlog_item :
    s_oneBacklog.items =
      [⟨1, 1, "t", none, ItemStatus.TODO, 0, none, none⟩] ∧
    succeeded
      (updateInboxItem 1 1 ⟨none, none, none, some 5⟩ 0 s_oneBacklog).1
        = true := by
  exact ⟨by decide, by decide⟩

/-- C7 (amended): `updateBacklogItem`, `moveInboxToBacklog` and
`moveBacklogToInbox` fail with NotFound — leaving the store unchanged —
whenever no row matches the id, the caller, non-deletedness and the
operation's source partition; `updateInboxItem` (when its title patch
passes validation) and `deleteInboxItem` fail with NotFound whenever no
row matches the id, the caller and non-deletedness (the source performs
no partition check in these two); and of two `deleteInboxItem` calls on
the same id the first succeeds and the second fails with NotFound,
leaving the store as it was after the first. -/
theorem notFound_error_handling_amended :
    (∀ uid id u now s, badTitlePatch u.title = false →
        (∀ it ∈ s.items,
          ¬(it.id = id ∧ it.userId = uid ∧ it.deletedAt = none)) →
        updateInboxItem uid id u now s =
          (Except.error OpError.notFound, s)) ∧
    (∀ uid id u s, badTitlePatch u.title = false →
        (∀ it ∈ s.items,
          ¬(it.id = id ∧ it.userId = uid ∧ it.deletedAt = none ∧
            it.dueDate = none)) →
        updateBacklogItem uid id u s = (Except.error OpError.notFound, s)) ∧
    (∀ uid id s,
        (∀ it ∈ s.items,
          ¬(it.id = id ∧ it.userId = uid ∧ it.deletedAt = none ∧
            it.dueDate ≠ none)) →
        moveInboxToBacklog uid id s = (Except.error OpError.notFound, s)) ∧
    (∀ uid id dd today s,
        (∀ it ∈ s.items,
          ¬(it.id = id ∧ it.userId = uid ∧ it.deletedAt = none ∧
            it.dueDate = none)) →
        moveBacklogToInbox uid id dd today s =
          (Except.error OpError.notFound, s)) ∧
    (∀ uid id now s,
        (∀ it ∈ s.items,
          ¬(it.id = id ∧ it.userId = uid ∧ it.deletedAt = none)) →
        deleteInboxItem uid id now s = (Except.error OpError.notFound, s)) ∧
    (∀ uid id now1 now2 s it0,
        s.items.find? (ownedWhere uid id) = some it0 →
        succeeded (deleteInboxItem uid id now1 s).1 = true ∧
        deleteInboxItem uid id now2 (deleteInboxItem uid id now1 s).2 =
          (Except.error OpError.notFound,
            (deleteInboxItem uid id now1 s).2)) := by
  refine ⟨?_, ?_, ?_, ?_, ?_, ?_⟩
  · intro uid id u now s hb hsem
    have hb' : ¬ (badTitlePatch u.title = true) := by
      rw [hb]
      exact Bool.false_ne_true
    have hnone : s.items.find? (ownedWhere uid id) = none :=
      List.find?_eq_none.mpr fun x hx h => hsem x hx (ownedWhere_iff.mp h)
    unfold updateInboxItem
    rw [if_neg hb', hnone]
  · intro uid id u s hb hsem
    have hb' : ¬ (badTitlePatch u.title = true) := by
      rw [hb]
      exact Bool.false_ne_true
    have hnone : s.items.find?
        (fun it => ownedWhere uid id it && it.dueDate.isNone) = none :=
      List.find?_eq_none.mpr fun x hx h =>
        hsem x hx (ownedBacklogWhere_iff.mp h)
    unfold updateBacklogItem
    rw [if_neg hb', hnone]
  · intro uid id s hsem
    have hnone : s.items.find?
        (fun it => ownedWhere uid id it && it.dueDate.isSome) = none :=
      List.find?_eq_none.mpr fun x hx h =>
        hsem x hx (ownedInboxWhere_iff.mp h)
    unfold moveInboxToBacklog
    rw [hnone]
  · intro uid id dd today s hsem
    have hnone : s.items.find?
        (fun it => ownedWhere uid id it && it.dueDate.isNone) = none :=
      List.find?_eq_none.mpr fun x hx h =>
        hsem x hx (ownedBacklogWhere_iff.mp h)
    unfold moveBacklogToInbox
    rw [hnone]
  · intro uid id now s hsem
    exact deleteInboxItem_none
      (List.find?_eq_none.mpr fun x hx h => hsem x hx (ownedWhere_iff.mp h))
  · intro uid id now1 now2 s it0 hfind
    have h1 : (deleteInboxItem uid id now1 s).2 =
        ⟨s.items.map fun it =>
          if it.id == id then { it with deletedAt := some now1 } else it⟩ := by
      simp only [deleteInboxItem, hfind]
    have hnone : ((deleteInboxItem uid id now1 s).2).items.find?
        (ownedWhere uid id) = none := by
      rw [h1]
      refine List.find?_eq_none.mpr fun x hx h => ?_
      rcases List.mem_map.mp hx with ⟨a, ha, rfl⟩
      by_cases hid : a.id = id
      · revert h
        simp [ownedWhere, hid]
      · revert h
        simp [ownedWhere, hid]
    constructor
    · simp only [deleteInboxItem, hfind]
      rfl
    · exact deleteInboxItem_none hnone

/-- C7 witness: the amended error-handling theorem applied on concrete
stores: every operation against the empty store fails with NotFound
leaving it unchanged, and a second soft delete of the same id fails
with NotFound. -/
theorem notFound_error_handling_amended_witness :
    updateInboxItem 1 1 ⟨none, none, none, none⟩ 0 ⟨[]⟩ =
      (Except.error OpError.notFound, ⟨[]⟩) ∧
    updateBacklogItem 1 1 ⟨none, none, none⟩ ⟨[]⟩ =
      (Except.error OpError.notFound, ⟨[]⟩) ∧
    moveInboxToBacklog 1 1 ⟨[]⟩ = (Except.error OpError.notFound, ⟨[]⟩) ∧
    moveBacklogToInbox 1 1 (some 0) 0 ⟨[]⟩ =
      (Except.error OpError.notFound, ⟨[]⟩) ∧
    deleteInboxItem 1 1 0 ⟨[]⟩ = (Except.error OpError.notFound, ⟨[]⟩) ∧
    succeeded (deleteInboxItem 1 1 5 s_oneBacklog).1 = true ∧
    deleteInboxItem 1 1 6 (deleteInboxItem 1 1 5 s_oneBacklog).2 =
      (Except.error OpError.notFound,
        (deleteInboxItem 1 1 5 s_oneBacklog).2) :=
  ⟨notFound_error_handling_amended.1 1 1 ⟨none, none, none, none⟩ 0 ⟨[]⟩ rfl
      (by simp),
   notFound_error_handling_amended.2.1 1 1 ⟨none, none, none⟩ ⟨[]⟩ rfl
      (by simp),
   notFound_error_handling_amended.2.2.1 1 1 ⟨[]⟩ (by simp),
   notFound_error_handling_amended.2.2.2.1 1 1 (some 0) 0 ⟨[]⟩ (by simp),
   notFound_error_handling_amended.2.2.2.2.1 1 1 0 ⟨[]⟩ (by simp),
   (notFound_error_handling_amended.2.2.2.2.2 1 1 5 6 s_oneBacklog
      ⟨1, 1, "t", none, ItemStatus.TODO, 0, none, none⟩ (by decide)).1,
   (notFound_error_handling_amended.2.2.2.2.2 1 1 5 6 s_oneBacklog
      ⟨1, 1, "t", none, ItemStatus.TODO, 0, none, none⟩ (by decide)).2⟩

/-- C8: creation assigns the new item an `order` strictly above every
order in the target partition (the owner's same-day items for
`addInboxItem`, the owner's Backlog for `addBacklogItem`), equal to
(max existing order) + 1 when the partition is non-empty and 0 when it
is empty; `getInboxItems` is sorted ascending and `getBacklogItems`
descending on `order`; creating "A" then "B" in the Backlog yields
[B, A] and creating "X" then "Y" due the same day yields [X, Y]. -/
theorem creation_order_and_list_sorting :
    (∀ uid title dd today newId s, (trimStr title).data.length ≠ 0 →
        succeeded (addInboxItem uid title dd today newId s).1 = true ∧
        ∀ it', (addInboxItem uid title dd today newId s).1 = Except.ok it' →
          (∀ x ∈ s.items.filter (sameDayWhere uid (dd.getD today)),
            x.order < it'.order) ∧
          (s.items.filter (sameDayWhere uid (dd.getD today)) = [] →
            it'.order = 0) ∧
          (s.items.filter (sameDayWhere uid (dd.getD today)) ≠ [] →
            ∃ x ∈ s.items.filter (sameDayWhere uid (dd.getD today)),
              it'.order = x.order + 1)) ∧
    (∀ uid title newId s, (trimStr title).data.length ≠ 0 →
        succeeded (addBacklogItem uid title newId s).1 = true ∧
        ∀ it', (addBacklogItem uid title newId s).1 = Except.ok it' →
          (∀ x ∈ s.items.filter (backlogWhere uid), x.order < it'.order) ∧
          (s.items.filter (backlogWhere uid) = [] → it'.order = 0) ∧
          (s.items.filter (backlogWhere uid) ≠ [] →
            ∃ x ∈ s.items.filter (backlogWhere uid),
              it'.order = x.order + 1)) ∧
    (∀ uid d s,
      (getInboxItems uid d s).Pairwise fun a b => a.order ≤ b.order) ∧
    (∀ uid s,
      (getBacklogItems uid s).Pairwise fun a b => b.order ≤ a.order) ∧
    getBacklogItems 1 s_backlogAB =
      [⟨2, 1, "B", none, ItemStatus.TODO, 1, none, none⟩,
       ⟨1, 1, "A", none, ItemStatus.TODO, 0, none, none⟩] ∧
    getInboxItems 1 0 s_inboxXY =
      [⟨1, 1, "X", some 0, ItemStatus.TODO, 0, none, none⟩,
       ⟨2, 1, "Y", some 0, ItemStatus.TODO, 1, none, none⟩] := by
  refine ⟨?_, ?_, ?_, ?_, by decide, by decide⟩
  · intro uid title dd today newId s h
    have hcond : ¬ (((trimStr title).data.length == 0) = true) := by
      simpa using h
    unfold addInboxItem
    rw [if_neg hcond]
    refine ⟨rfl, fun it' hit => ?_⟩
    cases hit
    exact nextOrder_spec _
  · intro uid title newId s h
    have hcond : ¬ (((trimStr title).data.length == 0) = true) := by
      simpa using h
    unfold addBacklogItem
    rw [if_neg hcond]
    refine ⟨rfl, fun it' hit => ?_⟩
    cases hit
    exact nextOrder_spec _
  · intro uid d s
    exact pairwise_sortByOrderAsc _
  · intro uid s
    exact pairwise_sortByOrderDesc _

/-- C8 witness: the creation clauses of the ordering theorem applied on
the empty store with non-blank titles. -/
theorem creation_order_and_list_sorting_witness :
    succeeded (addInboxItem 1 "X" (some 0) 0 1 ⟨[]⟩).1 = true ∧
    succeeded (addBacklogItem 1 "A" 1 ⟨[]⟩).1 = true :=
  ⟨(creation_order_and_list_sorting.1 1 "X" (some 0) 0 1 ⟨[]⟩ (by decide)).1,
   (creation_order_and_list_sorting.2.1 1 "A" 1 ⟨[]⟩ (by decide)).1⟩

/-- C9: an update whose patch contains a title that is empty after
trimming fails with ValidationError on both lists and returns the store
unchanged — the title validation runs before the existence check and
before any write. -/
theorem blank_title_validation :
    (∀ uid id u now s t, u.title = some t → (trimStr t).data.length = 0 →
        updateInboxItem uid id u now s =
          (Except.error OpError.validationError, s)) ∧
    (∀ uid id u s t, u.title = some t → (trimStr t).data.length = 0 →
        updateBacklogItem uid id u s =
          (Except.error OpError.validationError, s)) := by
  constructor
  · intro uid id u now s t ht h0
    have hb : badTitlePatch u.title = true := by
      rw [ht]
      simp [badTitlePatch, h0]
    unfold updateInboxItem
    rw [if_pos hb]
  · intro uid id u s t ht h0
    have hb : badTitlePatch u.title = true := by
      rw [ht]
      simp [badTitlePatch, h0]
    unfold updateBacklogItem
    rw [if_pos hb]

/-- C9 witness: the validation theorem applied with the whitespace
title "   " against a non-empty store, which is returned unchanged. -/
theorem blank_title_validation_witness :
    updateInboxItem 1 1 ⟨some "   ", none, none, some 7⟩ 0 s_oneBacklog =
      (Except.error OpError.validationError, s_oneBacklog) ∧
    updateBacklogItem 1 1 ⟨some "   ", none, some 7⟩ s_oneBacklog =
      (Except.error OpError.validationError, s_oneBacklog) :=
  ⟨blank_title_validation.1 1 1 ⟨some "   ", none, none, some 7⟩ 0
      s_oneBacklog "   " rfl (by decide),
   blank_title_validation.2 1 1 ⟨some "   ", none, some 7⟩ s_oneBacklog
      "   " rfl (by decide)⟩

end Inbox
